import Mathlib

/-!
# CloseCountry round engine: a shallow embedding of `app.py`

This file translates the round-sequencing engine of the CloseCountry quiz
(`src/app.py`) into Lean: the country catalog accessors, the
`/start_round` route (`start_round`), the `/make_guess` route
(`make_guess`), the `/submit_nickname` route (`submit_nickname`) with the
leaderboard upsert (`update_leaderboard`), and the `/get_game_over_data`
route (`get_game_over_data`).  Python sessions become an explicit
`Session` record, the SQLite highscore/leaderboard tables become explicit
values threaded through the functions, and `random.choice` /
`random.sample` become an injected `Rng` whose library guarantees
(membership, distinctness) appear as the `Rng.Valid` hypothesis.
Kilometer distances are modelled as rationals.
-/

/-- ASCII whitespace as Python's `str.strip` / `\s` treat it. -/
def isPySpace (c : Char) : Bool :=
  c = ' ' || c = '\t' || c = '\n' || c = '\r' || c = '\x0b' || c = '\x0c'

/-- Python regex `\w` (ASCII): letters, digits, underscore. -/
def isWordChar (c : Char) : Bool :=
  c.isAlphanum || c = '_'

/-- Characters kept by `update_leaderboard`'s `re.sub(r'[^\w\s-]', '', _)`. -/
def isLeaderboardChar (c : Char) : Bool :=
  isWordChar c || isPySpace c || c = '-'

/-- Characters allowed by `submit_nickname`'s regex `^[\w\s\-\.]+$`. -/
def isNicknameChar (c : Char) : Bool :=
  isLeaderboardChar c || c = '.'

/-- Drop leading Python whitespace from a character list. -/
def dropLeadingSpace (l : List Char) : List Char :=
  l.dropWhile isPySpace

/-- Python `str.strip()` on a character list. -/
def stripChars (l : List Char) : List Char :=
  (dropLeadingSpace ((dropLeadingSpace l).reverse)).reverse

/-- Python `str.strip()`. -/
def pyStrip (s : String) : String :=
  ⟨stripChars s.data⟩

/-- `re.sub(r'[^\w\s-]', '', s)`: delete every disallowed character. -/
def filterLeaderboardChars (s : String) : String :=
  ⟨s.data.filter isLeaderboardChar⟩

/-- A country's polygon as the map route sees it: validity and emptiness
flags of the cached geometry (`row.geometry.is_valid` / `.is_empty`). -/
structure GeoShape where
  isValid : Bool
  isEmpty : Bool
deriving Repr, DecidableEq

/-- Association-list lookup keyed by country name / user id. -/
def alistFind {α : Type} (k : String) : List (String × α) → Option α
  | [] => none
  | e :: rest => if e.1 = k then some e.2 else alistFind k rest

/-- The immutable in-memory tables loaded at startup: the distance dict
keyed by unordered name pairs (`distances_data`), the name → ISO code map
(`country_code_map`) and the shapes table (`gdf_all_shapes_preload`,
keyed by `name_en`). -/
structure Catalog where
  distList : List ((String × String) × Rat)
  codeMap : List (String × String)
  shapeList : List (String × GeoShape)
deriving Repr, DecidableEq

/-- `frozenset([a, b]) == frozenset([c, d])`: equality of unordered
pairs. -/
def samePair (a b : String) (k : String × String) : Bool :=
  (k.1 = a && k.2 = b) || (k.1 = b && k.2 = a)

/-- Lookup in the distance table by unordered pair. -/
def findPair (a b : String) : List ((String × String) × Rat) → Option Rat
  | [] => none
  | e :: rest => if samePair a b e.1 then some e.2 else findPair a b rest

/-- `get_distance(c1, c2)`: `distances_data.get(frozenset([c1, c2]))`. -/
def get_distance (cat : Catalog) (a b : String) : Option Rat :=
  findPair a b cat.distList

/-- `name in country_code_map`. -/
def hasCode (cat : Catalog) (n : String) : Bool :=
  (alistFind n cat.codeMap).isSome

/-- `name in gdf_all_shapes_preload.index`. -/
def inShapes (cat : Catalog) (n : String) : Bool :=
  (alistFind n cat.shapeList).isSome

/-- Names appearing in the distance table (`countries_set`). -/
def distCountryNames (cat : Catalog) : List String :=
  (cat.distList.map (fun e => e.1.1) ++ cat.distList.map (fun e => e.1.2)).dedup

/-- Lexicographic comparison of strings by character code (the order
Python's `sorted` uses on these ASCII names). -/
def lexLe : List Char → List Char → Bool
  | [], _ => true
  | _ :: _, [] => false
  | a :: as, b :: bs =>
    if a.toNat < b.toNat then true
    else if b.toNat < a.toNat then false
    else lexLe as bs

/-- Insert a string into a sorted list of strings. -/
def insertSorted (a : String) : List String → List String
  | [] => [a]
  | b :: t => if lexLe a.data b.data then a :: b :: t else b :: insertSorted a t

/-- Python's `sorted` on a list of strings (insertion sort). -/
def sortStrings : List String → List String
  | [] => []
  | a :: t => insertSorted a (sortStrings t)

/-- `country_list`: sorted names that have a distance entry, a code and a
shape (the startup cross-validation at lines 273-276 of `app.py`). -/
def countryList (cat : Catalog) : List String :=
  sortStrings ((distCountryNames cat).filter
    (fun n => hasCode cat n && inShapes cat n))

/-- The per-player Flask session dict as one explicit record; absent keys
are `none` (or `false` for the `round_in_progress` flag, which is always
read with `session.get('round_in_progress', False)`). -/
structure Session where
  score : Option Nat
  userHighscore : Option Nat
  baseCountry : Option String
  nextRoundBase : Option String
  nextRoundT1 : Option String
  nextRoundT2 : Option String
  servedBaseName : Option String
  servedTarget1Name : Option String
  servedTarget2Name : Option String
  servedNextT1Code : Option String
  servedNextT2Code : Option String
  roundInProgress : Bool
  lastFinalScore : Option Nat
deriving Repr, DecidableEq

/-- A session with no keys set. -/
def emptySession : Session :=
  ⟨none, none, none, none, none, none, none, none, none, none, none, false, none⟩

/-- The `random` module as an injected sampler: `choice` models
`random.choice`, `sample2` models `random.sample(_, 2)`. -/
structure Rng where
  choice : List String → String
  sample2 : List String → String × String

/-- The guarantees Python's `random` library gives on the calls the code
makes: `choice` of a nonempty list is a member; `sample(_, 2)` returns two
members, and two *distinct* ones when the list holds no duplicates (it
samples positions without replacement). -/
def Rng.Valid (r : Rng) : Prop :=
  (∀ l, l ≠ [] → r.choice l ∈ l) ∧
  (∀ l, 2 ≤ l.length → (r.sample2 l).1 ∈ l ∧ (r.sample2 l).2 ∈ l) ∧
  (∀ l, 2 ≤ l.length → l.Nodup → (r.sample2 l).1 ≠ (r.sample2 l).2)

/-- A deterministic sampler (used to instantiate theorems on concrete
catalogs): picks the first, respectively the first two, elements. -/
def headRng : Rng :=
  ⟨fun l => l.headD "", fun l => (l.headD "", (l.drop 1).headD "")⟩

theorem headRng_valid : Rng.Valid headRng := by
  refine ⟨?_, ?_, ?_⟩
  · intro l hl
    cases l with
    | nil => exact absurd rfl hl
    | cons a t => exact List.mem_cons_self a t
  · intro l hl
    match l, hl with
    | a :: b :: t, _ =>
      exact ⟨List.mem_cons_self _ _, List.mem_cons_of_mem _ (List.mem_cons_self _ _)⟩
  · intro l hl hnd
    match l, hl with
    | a :: b :: t, _ =>
      have hab : a ∉ b :: t := (List.nodup_cons.mp hnd).1
      intro h
      have h2 : a = b := h
      exact hab (h2 ▸ List.mem_cons_self b t)

/-- The JSON payload of a successfully served round (lines 440-448). -/
structure RoundPayload where
  baseName : String
  baseCode : String
  t1Name : String
  t1Code : String
  t2Name : String
  t2Code : String
  score : Nat
  highscore : Nat
  nextT1Code : Option String
  nextT2Code : Option String
deriving Repr, DecidableEq

/-- Outcome of `/start_round`: a served round, the terminal
"not enough valid countries" game-over, or a 500-style error. -/
inductive StartRoundResult where
  | round (p : RoundPayload)
  | gameOver
  | errorResp (msg : String)
deriving Repr, DecidableEq

/-- `possible_targets` / `possible_next_targets`: playable countries other
than the excluded base that have a code (lines 388 and 415 of `app.py`). -/
def targetsExcluding (cat : Catalog) (b : String) : List String :=
  (countryList cat).filter (fun c => decide (c ≠ b) && hasCode cat c)

/-- The next-round hint computation of `start_round` (lines 410-429):
given the served round, compare the two distances (tie favors target1),
sample two fresh targets excluding the hinted base, and look up their
codes; `none` when any step fails, in which case nothing is stored. -/
def computeHint (cat : Catalog) (rng : Rng) (base t1 t2 : String) :
    Option (String × String × String × String × String) :=
  match get_distance cat base t1, get_distance cat base t2 with
  | some d1, some d2 =>
    let pnb := if d1 ≤ d2 then t1 else t2
    let alts := targetsExcluding cat pnb
    if 2 ≤ alts.length then
      match alistFind (rng.sample2 alts).1 cat.codeMap,
            alistFind (rng.sample2 alts).2 cat.codeMap with
      | some k1, some k2 =>
        some (pnb, (rng.sample2 alts).1, (rng.sample2 alts).2, k1, k2)
      | _, _ => none
    else none
  | _, _ => none

/-- Serving a chosen triple (lines 395-448): look up the three codes
(500-style error and state reset on failure), store base and highscore in
the session, compute and store the hint, cache the served round and set
the anti-refresh flag, and return the round payload. -/
def startRoundServe (cat : Catalog) (rng : Rng) (uh cs : Nat)
    (base t1 t2 : String) (s : Session) : Session × StartRoundResult :=
  match alistFind base cat.codeMap, alistFind t1 cat.codeMap,
        alistFind t2 cat.codeMap with
  | some bc, some c1, some c2 =>
    match computeHint cat rng base t1 t2 with
    | some (pnb, n1, n2, k1, k2) =>
      ({ s with baseCountry := some base, userHighscore := some uh,
                nextRoundBase := some pnb, nextRoundT1 := some n1,
                nextRoundT2 := some n2, servedBaseName := some base,
                servedTarget1Name := some t1, servedTarget2Name := some t2,
                servedNextT1Code := some k1, servedNextT2Code := some k2,
                roundInProgress := true },
       .round ⟨base, bc, t1, c1, t2, c2, cs, uh, some k1, some k2⟩)
    | none =>
      ({ s with baseCountry := some base, userHighscore := some uh,
                servedBaseName := some base, servedTarget1Name := some t1,
                servedTarget2Name := some t2, servedNextT1Code := none,
                servedNextT2Code := none, roundInProgress := true },
       .round ⟨base, bc, t1, c1, t2, c2, cs, uh, none, none⟩)
  | _, _, _ =>
    ({ s with score := none, baseCountry := none, roundInProgress := false },
     .errorResp "Internal error: Could not find codes for current round countries.")

/-- Fresh generation (lines 375-393): reuse a still-playable session base
or pick one at random, then sample two distinct targets; terminal
game-over when fewer than two targets remain. -/
def startRoundFresh (cat : Catalog) (rng : Rng) (uh cs : Nat)
    (s : Session) : Session × StartRoundResult :=
  let valid := (countryList cat).filter (fun c => hasCode cat c)
  if valid.isEmpty then (s, .errorResp "No countries with codes found")
  else
    let base :=
      match s.baseCountry with
      | some b => if hasCode cat b then b else rng.choice valid
      | none => rng.choice valid
    if (targetsExcluding cat base).length < 2 then
      ({ s with score := none, baseCountry := none, roundInProgress := false },
       .gameOver)
    else
      startRoundServe cat rng uh cs base ((rng.sample2 (targetsExcluding cat base)).1)
        ((rng.sample2 (targetsExcluding cat base)).2) s

/-- `/start_round` after the replay branch (lines 347-448): initialize the
score key, guard on loaded data, consume a valid prefetched triple
(popping it either way) or fall back to fresh generation. -/
def startRoundNoReplay (cat : Catalog) (rng : Rng) (uh cs : Nat)
    (s : Session) : Session × StartRoundResult :=
  let s1 : Session := { s with score := some cs }
  if (countryList cat).isEmpty || cat.codeMap.isEmpty then
    (s1, .errorResp "Game data not fully loaded")
  else
    match s1.nextRoundBase, s1.nextRoundT1, s1.nextRoundT2 with
    | some pb, some p1, some p2 =>
      let s2 : Session :=
        { s1 with nextRoundBase := none, nextRoundT1 := none, nextRoundT2 := none }
      if hasCode cat pb && hasCode cat p1 && hasCode cat p2 &&
         decide (p1 ≠ pb) && decide (p2 ≠ pb) && decide (p1 ≠ p2) then
        startRoundServe cat rng uh cs pb p1 p2 s2
      else startRoundFresh cat rng uh cs s2
    | _, _, _ => startRoundFresh cat rng uh cs s1

/-- The `/start_round` route (lines 310-448).  `dbHighscore` is the
stored best score `get_user_highscore` would return for this player.  If
the anti-refresh flag is set and a served round is cached with resolvable
codes, the cached round and hint codes are replayed verbatim and the
session is untouched; otherwise the flag is dropped and a round is
generated. -/
def start_round (cat : Catalog) (rng : Rng) (dbHighscore : Nat)
    (s : Session) : Session × StartRoundResult :=
  let uh := s.userHighscore.getD dbHighscore
  let cs := s.score.getD 0
  match s.roundInProgress, s.servedBaseName, s.servedTarget1Name,
        s.servedTarget2Name with
  | true, some bn, some t1n, some t2n =>
    match alistFind bn cat.codeMap, alistFind t1n cat.codeMap,
          alistFind t2n cat.codeMap with
    | some bc, some c1, some c2 =>
      (s, .round ⟨bn, bc, t1n, c1, t2n, c2, cs, uh,
                  s.servedNextT1Code, s.servedNextT2Code⟩)
    | _, _, _ => startRoundNoReplay cat rng uh cs { s with roundInProgress := false }
  | _, _, _, _ => startRoundNoReplay cat rng uh cs s

/-- Outcome of `/make_guess`: session-mismatch rejection, missing
distance data, a correct guess, or the game-over response. -/
inductive GuessResult where
  | mismatch (finalScore : Nat)
  | missingDistance
  | correctResp (chosenDist otherDist : Rat) (closer : String) (score : Nat)
      (newHighscore : Bool) (highscore : Nat)
  | incorrectResp (chosenDist otherDist : Rat) (closer : String) (finalScore : Nat)
      (highscore : Nat) (promptNickname : Bool) (existingNickname : Option String)
      (mapParams : String × String × String)
deriving Repr, DecidableEq

/-- The session pops of the mismatch branch (lines 466-472). -/
def mismatchReset (s : Session) : Session :=
  { s with score := none, baseCountry := none,
           nextRoundBase := none, nextRoundT1 := none, nextRoundT2 := none,
           servedBaseName := none, servedTarget1Name := none,
           servedTarget2Name := none, servedNextT1Code := none,
           servedNextT2Code := none, roundInProgress := false }

/-- The mismatch response (line 473): the reported final score is
`session.get('score', 0)` read *after* the pops. -/
def mismatchRespond (s : Session) (db : Nat) : Session × Nat × GuessResult :=
  ((mismatchReset s), db, .mismatch ((mismatchReset s).score.getD 0))

/-- The pops of lines 475-477: the round is consumed exactly once. -/
def clearServed (s : Session) : Session :=
  { s with roundInProgress := false, servedBaseName := none,
           servedTarget1Name := none, servedTarget2Name := none,
           servedNextT1Code := none, servedNextT2Code := none }

/-- The `/make_guess` route (lines 450-527).  `dbHighscore` is the stored
best read at the start of the request; `existingNick` is what
`get_user_nickname` would return.  The returned `Nat` is the stored best
after the request (the conditional `update_user_highscore` write). -/
def make_guess (cat : Catalog) (dbHighscore : Nat) (existingNick : Option String)
    (s : Session) (base_c chosen_c other_c : String) :
    Session × Nat × GuessResult :=
  match s.baseCountry with
  | none => mismatchRespond s dbHighscore
  | some eb =>
    if eb = "" || base_c ≠ eb then mismatchRespond s dbHighscore
    else
      let s1 := clearServed s
      match get_distance cat base_c chosen_c, get_distance cat base_c other_c with
      | some distChosen, some distOther =>
        let isCorrectDistance := decide (distChosen ≤ distOther)
        let closerCountry := if isCorrectDistance then chosen_c else other_c
        let isCorrectGuess := isCorrectDistance && (chosen_c == closerCountry)
        let currentScore := s1.score.getD 0
        if isCorrectGuess then
          let newScore := currentScore + 1
          if dbHighscore < newScore then
            ({ s1 with score := some newScore, userHighscore := some newScore },
             newScore,
             .correctResp distChosen distOther closerCountry newScore true newScore)
          else
            ({ s1 with score := some newScore }, dbHighscore,
             .correctResp distChosen distOther closerCountry newScore false
               (s1.userHighscore.getD dbHighscore))
        else
          ({ s1 with score := none, baseCountry := none, nextRoundBase := none,
                     nextRoundT1 := none, nextRoundT2 := none,
                     lastFinalScore := some (s1.score.getD 0) },
           dbHighscore,
           .incorrectResp distChosen distOther closerCountry (s1.score.getD 0)
             dbHighscore
             (decide (0 < s1.score.getD 0) && decide (dbHighscore ≤ s1.score.getD 0))
             (if decide (0 < s1.score.getD 0) && decide (dbHighscore ≤ s1.score.getD 0)
              then existingNick else none)
             (base_c, chosen_c, other_c))
      | _, _ => (s1, dbHighscore, .missingDistance)

/-- The leaderboard table: rows `(user_id, nickname, score)` keyed by
`user_id`. -/
abbrev Leaderboard := List (String × String × Nat)

/-- The nickname sanitization inside `update_leaderboard` (lines
211-215): length/emptiness fallback, strip disallowed characters, trim,
and fall back to `"Anonymous"` when nothing is left. -/
def sanitizeNickname (n : String) : String :=
  let n1 := if n = "" || 20 < n.length then "Anonymous" else n
  let f := pyStrip (filterLeaderboardChars n1)
  if f = "" then "Anonymous" else f

/-- `update_leaderboard` (lines 208-232): upsert keyed by user id; an
existing row is replaced only when the new score is not lower
(`WHERE excluded.score >= leaderboard.score`). -/
def update_leaderboard (lb : Leaderboard) (uid nickname : String)
    (score : Nat) : Leaderboard :=
  match alistFind uid lb with
  | none => lb ++ [(uid, sanitizeNickname nickname, score)]
  | some (_, oldScore) =>
    if oldScore ≤ score then
      lb.map (fun e => if e.1 = uid then (uid, sanitizeNickname nickname, score) else e)
    else lb

/-- Outcome of `/submit_nickname`. -/
inductive SubmitNickResult where
  | rejected (msg : String)
  | accepted
deriving Repr, DecidableEq

/-- The validation `submit_nickname` applies to the client string: trim,
then length 2-20, then the character class of `^[\w\s\-\.]+$`. -/
def validNickname (raw : String) : Bool :=
  decide (2 ≤ (pyStrip raw).length) && decide ((pyStrip raw).length ≤ 20) &&
    (pyStrip raw).data.all isNicknameChar

/-- The `/submit_nickname` route (lines 626-654): the pending score is
popped unconditionally first; absence rejects, an invalid nickname
rejects, otherwise the leaderboard is upserted with the trimmed name. -/
def submit_nickname (lb : Leaderboard) (s : Session) (uid raw : String) :
    Session × Leaderboard × SubmitNickResult :=
  match s.lastFinalScore with
  | none =>
    ({ s with lastFinalScore := none }, lb,
     .rejected "No valid score available for submission.")
  | some finalScore =>
    if (pyStrip raw).length < 2 || 20 < (pyStrip raw).length then
      ({ s with lastFinalScore := none }, lb,
       .rejected "Nickname must be between 2 and 20 characters")
    else if !((pyStrip raw).data.all isNicknameChar) then
      ({ s with lastFinalScore := none }, lb,
       .rejected "Nickname contains invalid characters.")
    else
      ({ s with lastFinalScore := none },
       update_leaderboard lb uid (pyStrip raw) finalScore, .accepted)

/-- GeoJSON features of the game-over map, abstracted to their
`feature_type` tag and identifying properties. -/
inductive FeatureTag where
  | countryShape (name : String)
  | pointFeature (name : String)
  | distanceLine (pair : String × String)
deriving Repr, DecidableEq

/-- Outcome of `/get_game_over_data`: the two 404-style failures (missing
shape rows; fewer than three valid geometries) or the feature
collection. -/
inductive MapResult where
  | missingShapes (missing : List String)
  | incomplete
  | success (features : List FeatureTag)
deriving Repr, DecidableEq

/-- A country's cached row resolves to usable geometry: present, valid
and non-empty (the `continue` guard at line 579). -/
def resolvesOk (cat : Catalog) (n : String) : Bool :=
  match alistFind n cat.shapeList with
  | some g => g.isValid && !g.isEmpty
  | none => false

/-- The `/get_game_over_data` route (lines 529-624): batch-check the
index for the three names, emit one shape feature per name whose
geometry is valid and non-empty, fail if the resulting geometry dict has
fewer than three entries, else append the four nearest-point features
and the two distance lines. -/
def get_game_over_data (cat : Catalog) (base_c t1_c t2_c : String) : MapResult :=
  let involved := [base_c, t1_c, t2_c]
  let missing := involved.filter (fun c => !(inShapes cat c))
  if !missing.isEmpty then .missingShapes missing
  else if ((involved.filter (resolvesOk cat)).dedup).length ≠ 3 then .incomplete
  else
    .success ((involved.filter (resolvesOk cat)).map FeatureTag.countryShape ++
      [FeatureTag.pointFeature base_c, FeatureTag.pointFeature t1_c,
       FeatureTag.pointFeature base_c, FeatureTag.pointFeature t2_c,
       FeatureTag.distanceLine (base_c, t1_c), FeatureTag.distanceLine (base_c, t2_c)])

/-- Projection: the payload of a served round. -/
def roundPayloadOf : StartRoundResult → Option RoundPayload
  | .round p => some p
  | _ => none

/-- Projection: did `/make_guess` answer `correct=true`? -/
def isCorrectResult : GuessResult → Bool
  | .correctResp _ _ _ _ _ _ => true
  | _ => false

/-- Projection: the `prompt_nickname` flag of a game-over response. -/
def promptOf : GuessResult → Option Bool
  | .incorrectResp _ _ _ _ _ pr _ _ => some pr
  | _ => none

/-- Projection: the `final_score` of a game-over response. -/
def gameOverScoreOf : GuessResult → Option Nat
  | .incorrectResp _ _ _ fs _ _ _ _ => some fs
  | _ => none

/-! ## Infrastructure lemmas -/

theorem insertSorted_perm (a : String) (l : List String) :
    (insertSorted a l).Perm (a :: l) := by
  induction l with
  | nil => simp [insertSorted]
  | cons b t ih =>
    by_cases h : lexLe a.data b.data
    · simp [insertSorted, h]
    · simp only [insertSorted, h, if_false]
      exact (ih.cons b).trans (List.Perm.swap a b t)

theorem sortStrings_perm (l : List String) : (sortStrings l).Perm l := by
  induction l with
  | nil => simp [sortStrings]
  | cons a t ih =>
    exact (insertSorted_perm a (sortStrings t)).trans (ih.cons a)

theorem countryList_nodup (cat : Catalog) : (countryList cat).Nodup := by
  have h1 : (distCountryNames cat).Nodup := List.nodup_dedup _
  have h2 := h1.filter (fun n => hasCode cat n && inShapes cat n)
  exact ((sortStrings_perm _).nodup_iff).mpr h2

theorem targetsExcluding_nodup (cat : Catalog) (b : String) :
    (targetsExcluding cat b).Nodup :=
  (countryList_nodup cat).filter _

theorem mem_targetsExcluding {cat : Catalog} {b x : String}
    (h : x ∈ targetsExcluding cat b) : x ≠ b ∧ hasCode cat x = true := by
  have h2 := (List.mem_filter.mp h).2
  simp only [Bool.and_eq_true, decide_eq_true_eq] at h2
  exact h2

theorem hasCode_exists {cat : Catalog} {c : String} (h : hasCode cat c = true) :
    ∃ k, alistFind c cat.codeMap = some k := by
  simpa [hasCode, Option.isSome_iff_exists] using h

theorem hasCode_of_find {cat : Catalog} {c k : String}
    (h : alistFind c cat.codeMap = some k) : hasCode cat c = true := by
  simp [hasCode, h]


theorem computeHint_some_inv {cat : Catalog} {rng : Rng} {base t1 t2 pnb n1 n2 k1 k2 : String}
    (h : computeHint cat rng base t1 t2 = some (pnb, n1, n2, k1, k2)) :
    ∃ d1 d2, get_distance cat base t1 = some d1 ∧ get_distance cat base t2 = some d2 ∧
      pnb = (if d1 ≤ d2 then t1 else t2) ∧
      2 ≤ (targetsExcluding cat pnb).length ∧
      n1 = (rng.sample2 (targetsExcluding cat pnb)).1 ∧
      n2 = (rng.sample2 (targetsExcluding cat pnb)).2 ∧
      alistFind n1 cat.codeMap = some k1 ∧ alistFind n2 cat.codeMap = some k2 := by
  unfold computeHint at h
  split at h
  case _ d1 d2 hd1 hd2 =>
    refine ⟨d1, d2, hd1, hd2, ?_⟩
    dsimp only at h
    by_cases hle : d1 ≤ d2
    · simp only [hle, if_true] at h ⊢
      split at h
      next hlen =>
        split at h
        next hk1 hk2 =>
          simp only [Option.some.injEq, Prod.mk.injEq] at h
          obtain ⟨e1, e2, e3, e4, e5⟩ := h
          subst e1; subst e2; subst e3
          exact ⟨rfl, hlen, rfl, rfl, by rw [hk1, e4], by rw [hk2, e5]⟩
        next => simp at h
      next => simp at h
    · simp only [hle, if_false] at h ⊢
      split at h
      next hlen =>
        split at h
        next hk1 hk2 =>
          simp only [Option.some.injEq, Prod.mk.injEq] at h
          obtain ⟨e1, e2, e3, e4, e5⟩ := h
          subst e1; subst e2; subst e3
          exact ⟨rfl, hlen, rfl, rfl, by rw [hk1, e4], by rw [hk2, e5]⟩
        next => simp at h
      next => simp at h
  case _ => simp at h

theorem computeHint_some_of {cat : Catalog} {rng : Rng} {base t1 t2 : String} {d1 d2 : Rat}
    (hrng : Rng.Valid rng)
    (hd1 : get_distance cat base t1 = some d1) (hd2 : get_distance cat base t2 = some d2)
    (hlen : 2 ≤ (targetsExcluding cat (if d1 ≤ d2 then t1 else t2)).length) :
    ∃ n1 n2 k1 k2, computeHint cat rng base t1 t2 =
      some ((if d1 ≤ d2 then t1 else t2), n1, n2, k1, k2) := by
  unfold computeHint
  rw [hd1, hd2]
  dsimp only
  rw [if_pos hlen]
  obtain ⟨hm1, hm2⟩ := hrng.2.1 _ hlen
  obtain ⟨k1, hk1⟩ := hasCode_exists (mem_targetsExcluding hm1).2
  obtain ⟨k2, hk2⟩ := hasCode_exists (mem_targetsExcluding hm2).2
  rw [hk1, hk2]
  exact ⟨_, _, k1, k2, rfl⟩

theorem computeHint_none_left {cat : Catalog} {rng : Rng} {base t1 t2 : String}
    (hd1 : get_distance cat base t1 = none) :
    computeHint cat rng base t1 t2 = none := by
  unfold computeHint
  cases hd2 : get_distance cat base t2 <;> rw [hd1]

theorem computeHint_none_right {cat : Catalog} {rng : Rng} {base t1 t2 : String}
    (hd2 : get_distance cat base t2 = none) :
    computeHint cat rng base t1 t2 = none := by
  unfold computeHint
  cases hd1 : get_distance cat base t1 <;> rw [hd2]

theorem computeHint_none_short {cat : Catalog} {rng : Rng} {base t1 t2 : String} {d1 d2 : Rat}
    (hd1 : get_distance cat base t1 = some d1) (hd2 : get_distance cat base t2 = some d2)
    (hlen : (targetsExcluding cat (if d1 ≤ d2 then t1 else t2)).length < 2) :
    computeHint cat rng base t1 t2 = none := by
  unfold computeHint
  rw [hd1, hd2]
  dsimp only
  rw [if_neg (Nat.not_le.mpr hlen)]

theorem startRoundServe_round_inv {cat : Catalog} {rng : Rng} {uh cs : Nat}
    {base t1 t2 : String} {s s2 : Session} {p : RoundPayload}
    (h : startRoundServe cat rng uh cs base t1 t2 s = (s2, .round p)) :
    p.baseName = base ∧ p.t1Name = t1 ∧ p.t2Name = t2 ∧ p.score = cs ∧ p.highscore = uh ∧
    alistFind base cat.codeMap = some p.baseCode ∧
    alistFind t1 cat.codeMap = some p.t1Code ∧
    alistFind t2 cat.codeMap = some p.t2Code ∧
    s2.baseCountry = some base ∧ s2.userHighscore = some uh ∧
    s2.roundInProgress = true ∧
    s2.servedBaseName = some base ∧ s2.servedTarget1Name = some t1 ∧
    s2.servedTarget2Name = some t2 ∧
    s2.servedNextT1Code = p.nextT1Code ∧ s2.servedNextT2Code = p.nextT2Code ∧
    s2.score = s.score ∧ s2.lastFinalScore = s.lastFinalScore ∧
    (match computeHint cat rng base t1 t2 with
     | some x => s2.nextRoundBase = some x.1 ∧ s2.nextRoundT1 = some x.2.1 ∧
         s2.nextRoundT2 = some x.2.2.1 ∧ p.nextT1Code = some x.2.2.2.1 ∧
         p.nextT2Code = some x.2.2.2.2
     | none => s2.nextRoundBase = s.nextRoundBase ∧ s2.nextRoundT1 = s.nextRoundT1 ∧
         s2.nextRoundT2 = s.nextRoundT2 ∧ p.nextT1Code = none ∧ p.nextT2Code = none) := by
  unfold startRoundServe at h
  split at h
  next bc c1 c2 hbc hc1 hc2 =>
    split at h
    next pnb n1 n2 k1 k2 hh =>
      rw [Prod.mk.injEq] at h
      obtain ⟨hs, hr⟩ := h
      injection hr with hp
      subst hs; subst hp
      refine ⟨rfl, rfl, rfl, rfl, rfl, hbc, hc1, hc2, rfl, rfl, rfl, rfl, rfl, rfl,
        rfl, rfl, rfl, rfl, ?_⟩
      rw [hh]
      exact ⟨rfl, rfl, rfl, rfl, rfl⟩
    next hh =>
      rw [Prod.mk.injEq] at h
      obtain ⟨hs, hr⟩ := h
      injection hr with hp
      subst hs; subst hp
      refine ⟨rfl, rfl, rfl, rfl, rfl, hbc, hc1, hc2, rfl, rfl, rfl, rfl, rfl, rfl,
        rfl, rfl, rfl, rfl, ?_⟩
      rw [hh]
      exact ⟨rfl, rfl, rfl, rfl, rfl⟩
  next =>
    rw [Prod.mk.injEq] at h
    exact absurd h.2 (by simp)

theorem startRoundServe_round_of_codes {cat : Catalog} {rng : Rng} {uh cs : Nat}
    {base t1 t2 bc c1 c2 : String} (s : Session)
    (hbc : alistFind base cat.codeMap = some bc)
    (hc1 : alistFind t1 cat.codeMap = some c1)
    (hc2 : alistFind t2 cat.codeMap = some c2) :
    ∃ s2 p, startRoundServe cat rng uh cs base t1 t2 s = (s2, .round p) ∧
      p.baseName = base ∧ p.t1Name = t1 ∧ p.t2Name = t2 := by
  unfold startRoundServe
  rw [hbc, hc1, hc2]
  cases hh : computeHint cat rng base t1 t2 with
  | some x =>
    obtain ⟨pnb, n1, n2, k1, k2⟩ := x
    exact ⟨_, _, rfl, rfl, rfl, rfl⟩
  | none => exact ⟨_, _, rfl, rfl, rfl, rfl⟩

theorem startRoundFresh_round_inv {cat : Catalog} {rng : Rng} {uh cs : Nat}
    {s s2 : Session} {p : RoundPayload}
    (h : startRoundFresh cat rng uh cs s = (s2, .round p)) :
    ∃ base, 2 ≤ (targetsExcluding cat base).length ∧
      startRoundServe cat rng uh cs base ((rng.sample2 (targetsExcluding cat base)).1)
        ((rng.sample2 (targetsExcluding cat base)).2) s = (s2, .round p) := by
  unfold startRoundFresh at h
  dsimp only at h
  split at h
  next =>
    rw [Prod.mk.injEq] at h
    exact absurd h.2 (by simp)
  next hvalid =>
    split at h
    next =>
      rw [Prod.mk.injEq] at h
      exact absurd h.2 (by simp)
    next hge => exact ⟨_, Nat.not_lt.mp hge, h⟩

theorem startRoundFresh_full_inv {cat : Catalog} {rng : Rng} {uh cs : Nat}
    {sIn s2 : Session} {p : RoundPayload}
    (hrng : Rng.Valid rng)
    (h : startRoundFresh cat rng uh cs sIn = (s2, .round p)) :
    p.baseName ≠ p.t1Name ∧ p.baseName ≠ p.t2Name ∧ p.t1Name ≠ p.t2Name ∧
    p.score = cs ∧ p.highscore = uh ∧
    alistFind p.baseName cat.codeMap = some p.baseCode ∧
    alistFind p.t1Name cat.codeMap = some p.t1Code ∧
    alistFind p.t2Name cat.codeMap = some p.t2Code ∧
    s2.baseCountry = some p.baseName ∧ s2.userHighscore = some uh ∧
    s2.roundInProgress = true ∧ s2.score = sIn.score ∧
    s2.servedBaseName = some p.baseName ∧ s2.servedTarget1Name = some p.t1Name ∧
    s2.servedTarget2Name = some p.t2Name ∧
    s2.servedNextT1Code = p.nextT1Code ∧ s2.servedNextT2Code = p.nextT2Code ∧
    s2.lastFinalScore = sIn.lastFinalScore ∧
    (match computeHint cat rng p.baseName p.t1Name p.t2Name with
     | some x => s2.nextRoundBase = some x.1 ∧ s2.nextRoundT1 = some x.2.1 ∧
         s2.nextRoundT2 = some x.2.2.1 ∧ p.nextT1Code = some x.2.2.2.1 ∧
         p.nextT2Code = some x.2.2.2.2
     | none => s2.nextRoundBase = sIn.nextRoundBase ∧ s2.nextRoundT1 = sIn.nextRoundT1 ∧
         s2.nextRoundT2 = sIn.nextRoundT2 ∧ p.nextT1Code = none ∧ p.nextT2Code = none) := by
  obtain ⟨base, hlen, hserve⟩ := startRoundFresh_round_inv h
  have hinv := startRoundServe_round_inv hserve
  obtain ⟨hpb, hp1, hp2, hsc, hhs, hbc, hc1, hc2, hrest⟩ := hinv
  obtain ⟨hm1, hm2⟩ := hrng.2.1 _ hlen
  have hnd12 := hrng.2.2 _ hlen (targetsExcluding_nodup cat base)
  have ht1 := mem_targetsExcluding hm1
  have ht2 := mem_targetsExcluding hm2
  subst hpb
  rw [← hp1] at hc1 ht1 hnd12 hrest
  rw [← hp2] at hc2 ht2 hnd12 hrest
  obtain ⟨hb1, hb2, hb3, hb4, hb5, hb6, hb7, hb8, hb9, hb10, hb11⟩ := hrest
  exact ⟨Ne.symm ht1.1, Ne.symm ht2.1, hnd12, hsc, hhs, hbc, hc1, hc2,
    hb1, hb2, hb3, hb9, hb4, hb5, hb6, hb7, hb8, hb10, hb11⟩

/-- The three `next_round_*` keys are always set or popped together by the
app (lines 373, 422-424, 468, 521-523), so reachable sessions have either
all three or none. -/
def NextTripleConsistent (s : Session) : Prop :=
  (s.nextRoundBase = none ∧ s.nextRoundT1 = none ∧ s.nextRoundT2 = none) ∨
  (∃ a b c, s.nextRoundBase = some a ∧ s.nextRoundT1 = some b ∧ s.nextRoundT2 = some c)

theorem startRoundNoReplay_round_inv {cat : Catalog} {rng : Rng} {uh cs : Nat}
    {s s2 : Session} {p : RoundPayload}
    (hrng : Rng.Valid rng) (hclean : NextTripleConsistent s)
    (h : startRoundNoReplay cat rng uh cs s = (s2, .round p)) :
    countryList cat ≠ [] ∧ cat.codeMap ≠ [] ∧
    p.baseName ≠ p.t1Name ∧ p.baseName ≠ p.t2Name ∧ p.t1Name ≠ p.t2Name ∧
    p.score = cs ∧ p.highscore = uh ∧
    alistFind p.baseName cat.codeMap = some p.baseCode ∧
    alistFind p.t1Name cat.codeMap = some p.t1Code ∧
    alistFind p.t2Name cat.codeMap = some p.t2Code ∧
    s2.baseCountry = some p.baseName ∧ s2.userHighscore = some uh ∧
    s2.roundInProgress = true ∧ s2.score = some cs ∧
    s2.servedBaseName = some p.baseName ∧ s2.servedTarget1Name = some p.t1Name ∧
    s2.servedTarget2Name = some p.t2Name ∧
    s2.servedNextT1Code = p.nextT1Code ∧ s2.servedNextT2Code = p.nextT2Code ∧
    s2.lastFinalScore = s.lastFinalScore ∧
    (match computeHint cat rng p.baseName p.t1Name p.t2Name with
     | some x => s2.nextRoundBase = some x.1 ∧ s2.nextRoundT1 = some x.2.1 ∧
         s2.nextRoundT2 = some x.2.2.1 ∧ p.nextT1Code = some x.2.2.2.1 ∧
         p.nextT2Code = some x.2.2.2.2
     | none => s2.nextRoundBase = none ∧ s2.nextRoundT1 = none ∧
         s2.nextRoundT2 = none ∧ p.nextT1Code = none ∧ p.nextT2Code = none) := by
  unfold startRoundNoReplay at h
  dsimp only at h
  split at h
  next =>
    rw [Prod.mk.injEq] at h
    exact absurd h.2 (by simp)
  next hempty =>
    rw [Bool.or_eq_true] at hempty
    push_neg at hempty
    have hne1 : countryList cat ≠ [] := by
      intro e
      exact hempty.1 (by simp [e])
    have hne2 : cat.codeMap ≠ [] := by
      intro e
      exact hempty.2 (by simp [e])
    split at h
    next pb p1 p2 hnb hn1 hn2 =>
      split at h
      next hvalid =>
        simp only [Bool.and_eq_true, decide_eq_true_eq] at hvalid
        obtain ⟨⟨⟨⟨⟨hcpb, hcp1⟩, hcp2⟩, hne3⟩, hne4⟩, hne5⟩ := hvalid
        have hinv := startRoundServe_round_inv h
        obtain ⟨hpb, hp1, hp2, hsc, hhs, hbc, hc1, hc2, hrest⟩ := hinv
        subst hpb
        rw [← hp1] at hc1 hrest hne3 hne5
        rw [← hp2] at hc2 hrest hne4 hne5
        obtain ⟨hb1, hb2, hb3, hb4, hb5, hb6, hb7, hb8, hb9, hb10, hb11⟩ := hrest
        refine ⟨hne1, hne2, Ne.symm hne3, Ne.symm hne4, hne5, hsc, hhs, hbc, hc1, hc2,
          hb1, hb2, hb3, hb9, hb4, hb5, hb6, hb7, hb8, hb10, ?_⟩
        revert hb11
        cases computeHint cat rng p.baseName p.t1Name p.t2Name with
        | some x => exact fun hb11 => hb11
        | none => exact fun hb11 => ⟨hb11.1, hb11.2.1, hb11.2.2.1, hb11.2.2.2.1, hb11.2.2.2.2⟩
      next =>
        have hfull := startRoundFresh_full_inv hrng h
        obtain ⟨ha1, ha2, ha3, ha4, ha5, ha6, ha7, ha8, ha9, ha10, ha11, ha12, ha13,
          ha14, ha15, ha16, ha17, ha18, ha19⟩ := hfull
        refine ⟨hne1, hne2, ha1, ha2, ha3, ha4, ha5, ha6, ha7, ha8, ha9, ha10, ha11,
          by simpa using ha12, ha13, ha14, ha15, ha16, ha17, by simpa using ha18, ?_⟩
        revert ha19
        cases computeHint cat rng p.baseName p.t1Name p.t2Name with
        | some x => exact fun ha19 => ha19
        | none => exact fun ha19 => ⟨by simpa using ha19.1, by simpa using ha19.2.1,
            by simpa using ha19.2.2.1, ha19.2.2.2.1, ha19.2.2.2.2⟩
    next hnomatch =>
      have hall : s.nextRoundBase = none ∧ s.nextRoundT1 = none ∧ s.nextRoundT2 = none := by
        rcases hclean with hcl | ⟨a, b, c, ha, hb, hc⟩
        · exact hcl
        · exact (hnomatch a b c ha hb hc).elim
      have hfull := startRoundFresh_full_inv hrng h
      obtain ⟨ha1, ha2, ha3, ha4, ha5, ha6, ha7, ha8, ha9, ha10, ha11, ha12, ha13,
        ha14, ha15, ha16, ha17, ha18, ha19⟩ := hfull
      refine ⟨hne1, hne2, ha1, ha2, ha3, ha4, ha5, ha6, ha7, ha8, ha9, ha10, ha11,
        by simpa using ha12, ha13, ha14, ha15, ha16, ha17, by simpa using ha18, ?_⟩
      revert ha19
      cases computeHint cat rng p.baseName p.t1Name p.t2Name with
      | some x => exact fun ha19 => ha19
      | none => exact fun ha19 => ⟨by simpa [hall.1] using ha19.1,
          by simpa [hall.2.1] using ha19.2.1, by simpa [hall.2.2] using ha19.2.2.1,
          ha19.2.2.2.1, ha19.2.2.2.2⟩

theorem startRoundNoReplay_served_inv {cat : Catalog} {rng : Rng} {uh cs : Nat}
    {s s2 : Session} {p : RoundPayload}
    (h : startRoundNoReplay cat rng uh cs s = (s2, .round p)) :
    s2.roundInProgress = true ∧ s2.servedBaseName = some p.baseName ∧
    s2.servedTarget1Name = some p.t1Name ∧ s2.servedTarget2Name = some p.t2Name ∧
    alistFind p.baseName cat.codeMap = some p.baseCode ∧
    alistFind p.t1Name cat.codeMap = some p.t1Code ∧
    alistFind p.t2Name cat.codeMap = some p.t2Code ∧
    s2.servedNextT1Code = p.nextT1Code ∧ s2.servedNextT2Code = p.nextT2Code ∧
    s2.score = some cs ∧ s2.userHighscore = some uh := by
  unfold startRoundNoReplay at h
  dsimp only at h
  split at h
  next =>
    rw [Prod.mk.injEq] at h
    exact absurd h.2 (by simp)
  next =>
    have fromServe : ∀ (base t1 t2 : String) (sIn : Session),
        sIn.score = some cs →
        startRoundServe cat rng uh cs base t1 t2 sIn = (s2, .round p) →
        s2.roundInProgress = true ∧ s2.servedBaseName = some p.baseName ∧
        s2.servedTarget1Name = some p.t1Name ∧ s2.servedTarget2Name = some p.t2Name ∧
        alistFind p.baseName cat.codeMap = some p.baseCode ∧
        alistFind p.t1Name cat.codeMap = some p.t1Code ∧
        alistFind p.t2Name cat.codeMap = some p.t2Code ∧
        s2.servedNextT1Code = p.nextT1Code ∧ s2.servedNextT2Code = p.nextT2Code ∧
        s2.score = some cs ∧ s2.userHighscore = some uh := by
      intro base t1 t2 sIn hscin hs
      have hinv := startRoundServe_round_inv hs
      obtain ⟨hpb, hp1, hp2, hsc, hhs, hbc, hc1, hc2, hb1, hb2, hb3, hb4, hb5, hb6,
        hb7, hb8, hb9, hb10, hb11⟩ := hinv
      subst hpb
      rw [← hp1] at hc1 hb5
      rw [← hp2] at hc2 hb6
      exact ⟨hb3, hb4, hb5, hb6, hbc, hc1, hc2, hb7, hb8, by rw [hb9, hscin], hb2⟩
    split at h
    next pb p1 p2 hnb hn1 hn2 =>
      split at h
      next => exact fromServe _ _ _ _ rfl h
      next =>
        obtain ⟨base, hlen, hserve⟩ := startRoundFresh_round_inv h
        exact fromServe _ _ _ _ rfl hserve
    next =>
      obtain ⟨base, hlen, hserve⟩ := startRoundFresh_round_inv h
      exact fromServe _ _ _ _ rfl hserve

theorem start_round_served_inv {cat : Catalog} {rng : Rng} {db : Nat}
    {s s2 : Session} {p : RoundPayload}
    (h : start_round cat rng db s = (s2, .round p)) :
    s2.roundInProgress = true ∧ s2.servedBaseName = some p.baseName ∧
    s2.servedTarget1Name = some p.t1Name ∧ s2.servedTarget2Name = some p.t2Name ∧
    alistFind p.baseName cat.codeMap = some p.baseCode ∧
    alistFind p.t1Name cat.codeMap = some p.t1Code ∧
    alistFind p.t2Name cat.codeMap = some p.t2Code ∧
    s2.servedNextT1Code = p.nextT1Code ∧ s2.servedNextT2Code = p.nextT2Code := by
  unfold start_round at h
  dsimp only at h
  split at h
  next bn t1n t2n hflag hsb ht1 ht2 =>
    split at h
    next bc c1 c2 hbc hc1 hc2 =>
      rw [Prod.mk.injEq] at h
      obtain ⟨hs, hr⟩ := h
      injection hr with hp
      subst hs; subst hp
      exact ⟨hflag, hsb, ht1, ht2, hbc, hc1, hc2, rfl, rfl⟩
    next =>
      have hinv := startRoundNoReplay_served_inv h
      exact ⟨hinv.1, hinv.2.1, hinv.2.2.1, hinv.2.2.2.1, hinv.2.2.2.2.1,
        hinv.2.2.2.2.2.1, hinv.2.2.2.2.2.2.1, hinv.2.2.2.2.2.2.2.1,
        hinv.2.2.2.2.2.2.2.2.1⟩
  next =>
    have hinv := startRoundNoReplay_served_inv h
    exact ⟨hinv.1, hinv.2.1, hinv.2.2.1, hinv.2.2.2.1, hinv.2.2.2.2.1,
      hinv.2.2.2.2.2.1, hinv.2.2.2.2.2.2.1, hinv.2.2.2.2.2.2.2.1,
      hinv.2.2.2.2.2.2.2.2.1⟩

/-- **C2.** If a `/start_round` request served a round (so the session has
`round_in_progress` set and the served names cached), a second
`/start_round` with no intervening guess — whatever its sampler or stored
best score — returns the same round names and codes and the same cached
hint codes, and leaves the session exactly as it was. -/
theorem c2_replay_idempotent {cat : Catalog} {rng rng2 : Rng} {db db2 : Nat}
    {s s1 : Session} {p : RoundPayload}
    (h : start_round cat rng db s = (s1, .round p)) :
    ∃ q, start_round cat rng2 db2 s1 = (s1, .round q) ∧
      q.baseName = p.baseName ∧ q.baseCode = p.baseCode ∧
      q.t1Name = p.t1Name ∧ q.t1Code = p.t1Code ∧
      q.t2Name = p.t2Name ∧ q.t2Code = p.t2Code ∧
      q.nextT1Code = p.nextT1Code ∧ q.nextT2Code = p.nextT2Code := by
  obtain ⟨hflag, hsb, ht1, ht2, hbc, hc1, hc2, hk1, hk2⟩ := start_round_served_inv h
  unfold start_round
  rw [hflag, hsb, ht1, ht2]
  dsimp only
  rw [hbc, hc1, hc2]
  exact ⟨_, rfl, rfl, rfl, rfl, rfl, rfl, rfl, hk1, hk2⟩

theorem start_round_gen_inv {cat : Catalog} {rng : Rng} {db : Nat}
    {s s2 : Session} {p : RoundPayload}
    (hrng : Rng.Valid rng) (hflag : s.roundInProgress = false)
    (hclean : NextTripleConsistent s)
    (h : start_round cat rng db s = (s2, .round p)) :
    countryList cat ≠ [] ∧ cat.codeMap ≠ [] ∧
    p.baseName ≠ p.t1Name ∧ p.baseName ≠ p.t2Name ∧ p.t1Name ≠ p.t2Name ∧
    p.score = s.score.getD 0 ∧ p.highscore = s.userHighscore.getD db ∧
    alistFind p.baseName cat.codeMap = some p.baseCode ∧
    alistFind p.t1Name cat.codeMap = some p.t1Code ∧
    alistFind p.t2Name cat.codeMap = some p.t2Code ∧
    s2.baseCountry = some p.baseName ∧ s2.userHighscore = some (s.userHighscore.getD db) ∧
    s2.roundInProgress = true ∧ s2.score = some (s.score.getD 0) ∧
    s2.servedBaseName = some p.baseName ∧ s2.servedTarget1Name = some p.t1Name ∧
    s2.servedTarget2Name = some p.t2Name ∧
    s2.servedNextT1Code = p.nextT1Code ∧ s2.servedNextT2Code = p.nextT2Code ∧
    s2.lastFinalScore = s.lastFinalScore ∧
    (match computeHint cat rng p.baseName p.t1Name p.t2Name with
     | some x => s2.nextRoundBase = some x.1 ∧ s2.nextRoundT1 = some x.2.1 ∧
         s2.nextRoundT2 = some x.2.2.1 ∧ p.nextT1Code = some x.2.2.2.1 ∧
         p.nextT2Code = some x.2.2.2.2
     | none => s2.nextRoundBase = none ∧ s2.nextRoundT1 = none ∧
         s2.nextRoundT2 = none ∧ p.nextT1Code = none ∧ p.nextT2Code = none) := by
  unfold start_round at h
  dsimp only at h
  split at h
  next hfl hsb ht1 ht2 =>
    rw [hflag] at hfl
    exact absurd hfl (by simp)
  next => exact startRoundNoReplay_round_inv hrng hclean h

/-- **C1.** A guess that passes round validation and has both distances
cataloged is answered `correct=true` exactly when the chosen country's
distance is less than or equal to the other's (ties credit the player). -/
theorem c1_correct_iff_closer {cat : Catalog} {db : Nat} {nick : Option String}
    {s : Session} {base chosen other : String} {dc dother : Rat}
    (hbase : s.baseCountry = some base) (hbne : base ≠ "")
    (hdc : get_distance cat base chosen = some dc)
    (hdo : get_distance cat base other = some dother) :
    (isCorrectResult (make_guess cat db nick s base chosen other).2.2 = true ↔
      dc ≤ dother) := by
  unfold make_guess
  rw [hbase]
  dsimp only
  rw [if_neg (by simp [hbne])]
  rw [hdc, hdo]
  dsimp only
  by_cases hle : dc ≤ dother
  · simp only [hle, decide_eq_true_eq, iff_true]
    by_cases hdb : db < (clearServed s).score.getD 0 + 1 <;>
      simp [hdb, isCorrectResult]
  · simp only [hle, iff_false]
    simp [isCorrectResult, hle]

/-- **C4.** An incorrect guess (validation passed, both distances known,
chosen strictly farther) reports final score `f = session score` and
prompts for a nickname exactly when `f > 0` and `f ≥ storedBest`. -/
theorem c4_prompt_nickname_iff {cat : Catalog} {db : Nat} {nick : Option String}
    {s : Session} {base chosen other : String} {dc dother : Rat}
    (hbase : s.baseCountry = some base) (hbne : base ≠ "")
    (hdc : get_distance cat base chosen = some dc)
    (hdo : get_distance cat base other = some dother)
    (hgt : dother < dc) :
    (promptOf (make_guess cat db nick s base chosen other).2.2 = some true ↔
      (0 < s.score.getD 0 ∧ db ≤ s.score.getD 0)) ∧
    gameOverScoreOf (make_guess cat db nick s base chosen other).2.2 =
      some (s.score.getD 0) := by
  unfold make_guess
  rw [hbase]
  dsimp only
  rw [if_neg (by simp [hbne])]
  rw [hdc, hdo]
  dsimp only
  have hle : ¬(dc ≤ dother) := not_le.mpr hgt
  simp [hle, promptOf, gameOverScoreOf, clearServed, Bool.and_eq_true, decide_eq_true_eq]

/-- **C7.** A guess with no round outstanding or a base name different
from the cached one is rejected with a game-over response reporting final
score 0, and the session's score, base, prefetched hint, served-round
cache and anti-refresh flag are all cleared. -/
theorem c7_mismatch_resets {cat : Catalog} {db : Nat} {nick : Option String}
    {s : Session} {base chosen other : String}
    (hmm : s.baseCountry = none ∨ s.baseCountry ≠ some base) :
    make_guess cat db nick s base chosen other = (mismatchReset s, db, .mismatch 0) ∧
    (mismatchReset s).score = none ∧ (mismatchReset s).baseCountry = none ∧
    (mismatchReset s).nextRoundBase = none ∧ (mismatchReset s).nextRoundT1 = none ∧
    (mismatchReset s).nextRoundT2 = none ∧ (mismatchReset s).servedBaseName = none ∧
    (mismatchReset s).servedTarget1Name = none ∧
    (mismatchReset s).servedTarget2Name = none ∧
    (mismatchReset s).servedNextT1Code = none ∧
    (mismatchReset s).servedNextT2Code = none ∧
    (mismatchReset s).roundInProgress = false := by
  refine ⟨?_, by simp [mismatchReset], by simp [mismatchReset], by simp [mismatchReset],
    by simp [mismatchReset], by simp [mismatchReset], by simp [mismatchReset],
    by simp [mismatchReset], by simp [mismatchReset], by simp [mismatchReset],
    by simp [mismatchReset], by simp [mismatchReset]⟩
  unfold make_guess
  cases hcase : s.baseCountry with
  | none =>
    unfold mismatchRespond
    simp [mismatchReset]
  | some eb =>
    have hne : base ≠ eb := by
      rcases hmm with hm | hm
      · rw [hcase] at hm; exact absurd hm (by simp)
      · rw [hcase] at hm
        intro e
        exact hm (by rw [e])
    dsimp only
    rw [if_pos (by simp [hne])]
    unfold mismatchRespond
    simp [mismatchReset]

theorem make_guess_correct_state {cat : Catalog} {db : Nat} {nick : Option String}
    {s : Session} {base chosen other : String}
    (hc : isCorrectResult (make_guess cat db nick s base chosen other).2.2 = true) :
    ((make_guess cat db nick s base chosen other).1).nextRoundBase = s.nextRoundBase ∧
    ((make_guess cat db nick s base chosen other).1).nextRoundT1 = s.nextRoundT1 ∧
    ((make_guess cat db nick s base chosen other).1).nextRoundT2 = s.nextRoundT2 ∧
    ((make_guess cat db nick s base chosen other).1).roundInProgress = false := by
  unfold make_guess at hc ⊢
  cases hcase : s.baseCountry with
  | none =>
    rw [hcase] at hc
    simp [mismatchRespond, isCorrectResult] at hc
  | some eb =>
    rw [hcase] at hc
    dsimp only at hc ⊢
    by_cases hcond : (eb = "" || decide (base ≠ eb)) = true
    · rw [if_pos hcond] at hc
      simp [mismatchRespond, isCorrectResult] at hc
    · rw [if_neg hcond] at hc ⊢
      cases hd1 : get_distance cat base chosen with
      | none =>
        rw [hd1] at hc
        simp [isCorrectResult] at hc
      | some dc =>
        rw [hd1] at hc
        cases hd2 : get_distance cat base other with
        | none =>
          rw [hd2] at hc
          simp [isCorrectResult] at hc
        | some dother =>
          rw [hd2] at hc
          dsimp only at hc ⊢
          by_cases hguess : (decide (dc ≤ dother) &&
              (chosen == if decide (dc ≤ dother) = true then chosen else other)) = true
          · rw [if_pos hguess] at hc ⊢
            by_cases hdb : db < (clearServed s).score.getD 0 + 1
            · rw [if_pos hdb]
              simp [clearServed]
            · rw [if_neg hdb]
              simp [clearServed]
          · rw [if_neg hguess] at hc
            simp [isCorrectResult] at hc

theorem start_round_prefetch_consume {cat : Catalog} (rng : Rng) (db : Nat)
    {s : Session} {nb n1 n2 : String}
    (hflag : s.roundInProgress = false)
    (hnb : s.nextRoundBase = some nb) (hn1 : s.nextRoundT1 = some n1)
    (hn2 : s.nextRoundT2 = some n2)
    (hne : ((countryList cat).isEmpty || cat.codeMap.isEmpty) = false)
    (hc0 : hasCode cat nb = true) (hc1 : hasCode cat n1 = true)
    (hc2 : hasCode cat n2 = true)
    (hd1 : n1 ≠ nb) (hd2 : n2 ≠ nb) (hd3 : n1 ≠ n2) :
    ∃ s2 q, start_round cat rng db s = (s2, .round q) ∧ q.baseName = nb ∧
      q.t1Name = n1 ∧ q.t2Name = n2 := by
  unfold start_round
  rw [hflag]
  dsimp only
  unfold startRoundNoReplay
  dsimp only
  rw [if_neg (by simp [hne])]
  rw [hnb, hn1, hn2]
  dsimp only
  rw [if_pos (by simp [hc0, hc1, hc2, hd1, hd2, hd3])]
  obtain ⟨bc, hbc⟩ := hasCode_exists hc0
  obtain ⟨c1, hcc1⟩ := hasCode_exists hc1
  obtain ⟨c2, hcc2⟩ := hasCode_exists hc2
  obtain ⟨s2, q, heq, hqb, hq1, hq2⟩ :=
    startRoundServe_round_of_codes _ hbc hcc1 hcc2
  exact ⟨s2, q, heq, by rw [hqb], by rw [hq1], by rw [hq2]⟩

/-- **C3 (amended).** Every round generated by `/start_round` (prefetched
or fresh) has pairwise-distinct base, target1 and target2, each with an
ISO code; the original claim's stronger clause — that the catalog also
holds a distance entry for both served pairs — is refuted by
`c3_counterexample`. -/
theorem c3_round_distinct {cat : Catalog} {rng : Rng} {db : Nat}
    {s s2 : Session} {p : RoundPayload}
    (hrng : Rng.Valid rng) (hflag : s.roundInProgress = false)
    (hclean : NextTripleConsistent s)
    (h : start_round cat rng db s = (s2, .round p)) :
    p.baseName ≠ p.t1Name ∧ p.baseName ≠ p.t2Name ∧ p.t1Name ≠ p.t2Name ∧
    hasCode cat p.baseName = true ∧ hasCode cat p.t1Name = true ∧
    hasCode cat p.t2Name = true := by
  obtain ⟨_, _, h3, h4, h5, _, _, hbc, hc1, hc2, _⟩ :=
    start_round_gen_inv hrng hflag hclean h
  exact ⟨h3, h4, h5, hasCode_of_find hbc, hasCode_of_find hc1, hasCode_of_find hc2⟩

/-- **C6.** For a freshly generated round: when both distances are
cataloged the stored hint's base is target1 if `d1 ≤ d2` (tie favors
target1) and target2 otherwise, provided at least two alternative targets
distinct from the hinted base remain; no hint is stored when either
distance is missing or fewer than two alternatives exist — while the
round itself is still served (the hypothesis is a served round). -/
theorem c6_hint_policy {cat : Catalog} {rng : Rng} {db : Nat}
    {s s2 : Session} {p : RoundPayload}
    (hrng : Rng.Valid rng) (hflag : s.roundInProgress = false)
    (hclean : NextTripleConsistent s)
    (h : start_round cat rng db s = (s2, .round p)) :
    (∀ d1 d2, get_distance cat p.baseName p.t1Name = some d1 →
        get_distance cat p.baseName p.t2Name = some d2 →
        (2 ≤ (targetsExcluding cat (if d1 ≤ d2 then p.t1Name else p.t2Name)).length →
           s2.nextRoundBase = some (if d1 ≤ d2 then p.t1Name else p.t2Name)) ∧
        ((targetsExcluding cat (if d1 ≤ d2 then p.t1Name else p.t2Name)).length < 2 →
           s2.nextRoundBase = none)) ∧
    (get_distance cat p.baseName p.t1Name = none → s2.nextRoundBase = none) ∧
    (get_distance cat p.baseName p.t2Name = none → s2.nextRoundBase = none) := by
  obtain ⟨_, _, _, _, _, _, _, _, _, _, _, _, _, _, _, _, _, _, _, _, hmatch⟩ :=
    start_round_gen_inv hrng hflag hclean h
  refine ⟨?_, ?_, ?_⟩
  · intro d1 d2 hd1 hd2
    constructor
    · intro hlen
      obtain ⟨n1, n2, k1, k2, hch⟩ := computeHint_some_of hrng hd1 hd2 hlen
      rw [hch] at hmatch
      exact hmatch.1
    · intro hlen
      rw [computeHint_none_short hd1 hd2 hlen] at hmatch
      exact hmatch.1
  · intro hd1
    rw [computeHint_none_left hd1] at hmatch
    exact hmatch.1
  · intro hd2
    rw [computeHint_none_right hd2] at hmatch
    exact hmatch.1

/-- **C5 (amended).** After a correct guess whose chosen country is
*strictly* closer than the other, if a next-round hint was stored for the
served round, the next `/start_round` consumes it and serves a round
whose base is the chosen country.  (The original claim is refuted by
`c5_counterexample`: on a distance tie a correct guess of target2 still
yields a next base of target1, and with no stored hint fresh generation
reuses the previous base.) -/
theorem c5_chain_next_base {cat : Catalog} {rng rng2 : Rng} {db db2 db3 : Nat}
    {nick : Option String} {s s1 : Session} {p : RoundPayload}
    {chosen other : String} {dc dother : Rat}
    (hrng : Rng.Valid rng)
    (hflag : s.roundInProgress = false) (hclean : NextTripleConsistent s)
    (h1 : start_round cat rng db s = (s1, .round p))
    (hhint : s1.nextRoundBase.isSome = true)
    (hco : (chosen = p.t1Name ∧ other = p.t2Name) ∨
           (chosen = p.t2Name ∧ other = p.t1Name))
    (hdc : get_distance cat p.baseName chosen = some dc)
    (hdo : get_distance cat p.baseName other = some dother)
    (hstrict : dc < dother)
    (hcorrect : isCorrectResult
      (make_guess cat db2 nick s1 p.baseName chosen other).2.2 = true) :
    ∃ s3 q, start_round cat rng2 db3
        (make_guess cat db2 nick s1 p.baseName chosen other).1 = (s3, .round q) ∧
      q.baseName = chosen := by
  obtain ⟨hne1, hne2, _, _, _, _, _, hbc, hcc1, hcc2, _, _, _, _, _, _, _, _, _, _,
    hmatch⟩ := start_round_gen_inv hrng hflag hclean h1
  cases hch : computeHint cat rng p.baseName p.t1Name p.t2Name with
  | none =>
    rw [hch] at hmatch
    rw [hmatch.1] at hhint
    simp at hhint
  | some x =>
    obtain ⟨pnb, n1, n2, k1, k2⟩ := x
    rw [hch] at hmatch
    obtain ⟨hsnb, hsn1, hsn2, _, _⟩ := hmatch
    obtain ⟨d1, d2, hgd1, hgd2, hpnb, hlen, hn1e, hn2e, hk1, hk2⟩ :=
      computeHint_some_inv hch
    have hpc : pnb = chosen := by
      rcases hco with ⟨hc, ho⟩ | ⟨hc, ho⟩
      · rw [hc] at hdc
        rw [ho] at hdo
        rw [hgd1] at hdc
        rw [hgd2] at hdo
        have e1 : d1 = dc := Option.some.inj hdc
        have e2 : d2 = dother := Option.some.inj hdo
        rw [hpnb, if_pos (by rw [e1, e2]; exact le_of_lt hstrict), hc]
      · rw [hc] at hdc
        rw [ho] at hdo
        rw [hgd2] at hdc
        rw [hgd1] at hdo
        have e1 : d2 = dc := Option.some.inj hdc
        have e2 : d1 = dother := Option.some.inj hdo
        rw [hpnb, if_neg (by rw [e1, e2]; exact not_le.mpr hstrict), hc]
    obtain ⟨hm1, hm2⟩ := hrng.2.1 _ hlen
    have hnd12 : n1 ≠ n2 := by
      rw [hn1e, hn2e]
      exact hrng.2.2 _ hlen (targetsExcluding_nodup cat pnb)
    rw [← hn1e] at hm1
    rw [← hn2e] at hm2
    have ht1 := mem_targetsExcluding hm1
    have ht2 := mem_targetsExcluding hm2
    have hcnb : hasCode cat pnb = true := by
      by_cases hle12 : d1 ≤ d2
      · rw [hpnb, if_pos hle12]
        exact hasCode_of_find hcc1
      · rw [hpnb, if_neg hle12]
        exact hasCode_of_find hcc2
    have hstate := make_guess_correct_state hcorrect
    obtain ⟨hs1, hs2, hs3, hs4⟩ := hstate
    obtain ⟨s3, q, heq, hqb, _, _⟩ :=
      start_round_prefetch_consume rng2 db3 hs4
        (by rw [hs1, hsnb]) (by rw [hs2, hsn1]) (by rw [hs3, hsn2])
        (by simp [List.isEmpty_iff, hne1, hne2]) hcnb
        (hasCode_of_find hk1) (hasCode_of_find hk2) ht1.1 ht2.1 hnd12
    exact ⟨s3, q, heq, by rw [hqb, hpc]⟩

/-- **C8.** `/submit_nickname` clears the pending score unconditionally;
with no pending score it rejects and leaves the leaderboard alone; with a
pending score it accepts exactly the nicknames whose trimmed form has
length 2-20 and only allowed characters, on acceptance it applies the
upsert `update_leaderboard` — which leaves the board unchanged when an
existing entry for this identity has a strictly higher score — and on
rejection the leaderboard is untouched. -/
theorem c8_submit_nickname_rules (lb : Leaderboard) (s : Session) (uid raw : String) :
    ((submit_nickname lb s uid raw).1.lastFinalScore = none) ∧
    (s.lastFinalScore = none →
      (submit_nickname lb s uid raw).2.1 = lb ∧
      (submit_nickname lb s uid raw).2.2 =
        .rejected "No valid score available for submission.") ∧
    (∀ f, s.lastFinalScore = some f →
      (((submit_nickname lb s uid raw).2.2 = .accepted) ↔ validNickname raw = true) ∧
      (validNickname raw = false → (submit_nickname lb s uid raw).2.1 = lb) ∧
      (validNickname raw = true →
        (submit_nickname lb s uid raw).2.1 = update_leaderboard lb uid (pyStrip raw) f ∧
        (∀ nk sc, alistFind uid lb = some (nk, sc) → f < sc →
          (submit_nickname lb s uid raw).2.1 = lb))) := by
  unfold submit_nickname
  cases hfs : s.lastFinalScore with
  | none =>
    refine ⟨rfl, fun _ => ⟨rfl, rfl⟩, ?_⟩
    intro f hf
    exact absurd hf (by simp)
  | some f0 =>
    dsimp only
    have hclear : (if (decide ((pyStrip raw).length < 2) ||
          decide (20 < (pyStrip raw).length)) = true then
        ({ s with lastFinalScore := none }, lb,
         SubmitNickResult.rejected "Nickname must be between 2 and 20 characters")
      else if (!(pyStrip raw).data.all isNicknameChar) = true then
        ({ s with lastFinalScore := none }, lb,
         SubmitNickResult.rejected "Nickname contains invalid characters.")
      else
        ({ s with lastFinalScore := none },
         update_leaderboard lb uid (pyStrip raw) f0,
         SubmitNickResult.accepted)).1.lastFinalScore = none := by
      split
      · rfl
      · split <;> rfl
    refine ⟨hclear, ?_, ?_⟩
    · intro hnone
      exact absurd hnone (by simp)
    · intro f hf
      have hff : f0 = f := Option.some.inj hf
      subst hff
      by_cases hlen : (decide ((pyStrip raw).length < 2) ||
          decide (20 < (pyStrip raw).length)) = true
      · rw [if_pos hlen]
        have hval : validNickname raw = false := by
          unfold validNickname
          simp only [Bool.or_eq_true, decide_eq_true_eq] at hlen
          rcases hlen with hl | hl
          · have h2 : ¬(2 ≤ (pyStrip raw).length) := not_le.mpr hl
            simp [h2]
          · have h2 : ¬((pyStrip raw).length ≤ 20) := not_le.mpr hl
            simp [h2]
        refine ⟨?_, fun _ => rfl, ?_⟩
        · constructor
          · intro he
            exact absurd he (by simp)
          · intro hv
            rw [hval] at hv
            exact absurd hv (by simp)
        · intro hv
          rw [hval] at hv
          exact absurd hv (by simp)
      · rw [if_neg hlen]
        by_cases hall : (pyStrip raw).data.all isNicknameChar = true
        · rw [if_neg (by simp [hall])]
          have hval : validNickname raw = true := by
            unfold validNickname
            simp only [Bool.or_eq_true, decide_eq_true_eq] at hlen
            push_neg at hlen
            simp [hall, hlen.1, hlen.2]
          refine ⟨by simp [hval], ?_, ?_⟩
          · intro hv
            rw [hval] at hv
            exact absurd hv (by simp)
          · intro _
            refine ⟨rfl, ?_⟩
            intro nk sc hfind hlt
            unfold update_leaderboard
            rw [hfind]
            dsimp only
            rw [if_neg (not_le.mpr hlt)]
        · have hallf : (pyStrip raw).data.all isNicknameChar = false := by
            cases hx : (pyStrip raw).data.all isNicknameChar
            · rfl
            · exact absurd hx hall
          rw [if_pos (by simp [hallf])]
          have hval : validNickname raw = false := by
            unfold validNickname
            simp [hallf]
          refine ⟨?_, fun _ => rfl, ?_⟩
          · constructor
            · intro he
              exact absurd he (by simp)
            · intro hv
              rw [hval] at hv
              exact absurd hv (by simp)
          · intro hv
            rw [hval] at hv
            exact absurd hv (by simp)

/-- Is a feature a country shape? -/
def isShapeFeature : FeatureTag → Bool
  | .countryShape _ => true
  | _ => false

/-- Is a feature a nearest-point marker? -/
def isPointFeature : FeatureTag → Bool
  | .pointFeature _ => true
  | _ => false

/-- Is a feature a distance line? -/
def isLineFeature : FeatureTag → Bool
  | .distanceLine _ => true
  | _ => false

/-- Did the map route fail with one of its 404-style responses? -/
def is404 : MapResult → Bool
  | .missingShapes _ => true
  | .incomplete => true
  | .success _ => false

/-- **C9.** A successful `/get_game_over_data` response has exactly 9
features — 3 country shapes, 4 nearest-point markers, 2 distance lines —
and is only produced when the three names are distinct and all resolve to
valid non-empty geometry; otherwise the route answers with a 404-style
error, never a partial map. -/
theorem c9_map_features (cat : Catalog) (b t1 t2 : String) :
    (∀ fs, get_game_over_data cat b t1 t2 = .success fs →
       fs.length = 9 ∧ (fs.filter isShapeFeature).length = 3 ∧
       (fs.filter isPointFeature).length = 4 ∧
       (fs.filter isLineFeature).length = 2 ∧
       b ≠ t1 ∧ b ≠ t2 ∧ t1 ≠ t2 ∧
       resolvesOk cat b = true ∧ resolvesOk cat t1 = true ∧
       resolvesOk cat t2 = true) ∧
    (¬(b ≠ t1 ∧ b ≠ t2 ∧ t1 ≠ t2 ∧ resolvesOk cat b = true ∧
        resolvesOk cat t1 = true ∧ resolvesOk cat t2 = true) →
      is404 (get_game_over_data cat b t1 t2) = true) := by
  have hmain : ∀ fs, get_game_over_data cat b t1 t2 = .success fs →
      fs.length = 9 ∧ (fs.filter isShapeFeature).length = 3 ∧
      (fs.filter isPointFeature).length = 4 ∧
      (fs.filter isLineFeature).length = 2 ∧
      b ≠ t1 ∧ b ≠ t2 ∧ t1 ≠ t2 ∧
      resolvesOk cat b = true ∧ resolvesOk cat t1 = true ∧
      resolvesOk cat t2 = true := by
    intro fs h
    unfold get_game_over_data at h
    dsimp only at h
    split at h
    next => exact absurd h (by simp)
    next =>
      split at h
      next => exact absurd h (by simp)
      next hlen3 =>
        injection h with hfs
        have hlen : ([b, t1, t2].filter (resolvesOk cat)).dedup.length = 3 :=
          not_not.mp hlen3
        have hsub1 : ([b, t1, t2].filter (resolvesOk cat)).Sublist [b, t1, t2] :=
          List.filter_sublist _
        have hsub2 : ([b, t1, t2].filter (resolvesOk cat)).dedup.Sublist
            ([b, t1, t2].filter (resolvesOk cat)) := List.dedup_sublist _
        have hle1 := hsub1.length_le
        have hle2 := hsub2.length_le
        have hflen : ([b, t1, t2].filter (resolvesOk cat)).length = 3 := by
          simp only [List.length_cons, List.length_nil] at hle1
          omega
        have hfeq : [b, t1, t2].filter (resolvesOk cat) = [b, t1, t2] :=
          hsub1.eq_of_length (by rw [hflen]; rfl)
        have hdeq : ([b, t1, t2].filter (resolvesOk cat)).dedup =
            [b, t1, t2].filter (resolvesOk cat) :=
          hsub2.eq_of_length (by rw [hlen, hflen])
        have hnodup : ([b, t1, t2] : List String).Nodup := by
          have hnd := List.nodup_dedup ([b, t1, t2].filter (resolvesOk cat))
          rw [hdeq, hfeq] at hnd
          exact hnd
        have hresall := List.filter_eq_self.mp hfeq
        have hd := hnodup
        simp only [List.nodup_cons, List.mem_cons, List.mem_singleton,
          List.not_mem_nil, List.nodup_nil, and_true, not_or] at hd
        rw [← hfs, hfeq]
        refine ⟨by simp, by simp [isShapeFeature, isPointFeature, isLineFeature],
          by simp [isShapeFeature, isPointFeature, isLineFeature],
          by simp [isShapeFeature, isPointFeature, isLineFeature],
          hd.1.1, hd.1.2.1, hd.2.1.1, hresall b (by simp), hresall t1 (by simp),
          hresall t2 (by simp)⟩
  refine ⟨hmain, ?_⟩
  intro hbad
  cases hres2 : get_game_over_data cat b t1 t2 with
  | missingShapes m => rfl
  | incomplete => rfl
  | success fs =>
    obtain ⟨_, _, _, _, d1, d2, d3, r1, r2, r3⟩ := hmain fs hres2
    exact absurd ⟨d1, d2, d3, r1, r2, r3⟩ hbad

/-- The stored-nickname transformation as C10's wording describes it:
remove every disallowed character, fall back to `"Anonymous"` when empty —
with no trimming step (for comparison with `sanitizeNickname`). -/
def claimedStoredNickname (n : String) : String :=
  if filterLeaderboardChars n = "" then "Anonymous" else filterLeaderboardChars n

theorem sanitizeNickname_of_valid {m : String} (hne : m ≠ "") (hl20 : m.length ≤ 20) :
    sanitizeNickname m =
      if pyStrip (filterLeaderboardChars m) = "" then "Anonymous"
      else pyStrip (filterLeaderboardChars m) := by
  unfold sanitizeNickname
  have hc : (decide (m = "") || decide (20 < m.length)) = false := by
    simp [hne]
    omega
  rw [hc]
  simp

/-- **C10 (amended).** For a nickname accepted by `/submit_nickname`'s
validation, the value stored in the leaderboard is the disallowed-character
strip of the (already trimmed) nickname, *trimmed again* of surrounding
whitespace, with `"Anonymous"` when nothing is left.  (The original
claim's untrimmed version is refuted by `c10_counterexample`.) -/
theorem c10_stored_nickname (lb : Leaderboard) (s : Session) (uid raw : String) (f : Nat)
    (hval : validNickname raw = true) (hfs : s.lastFinalScore = some f)
    (hnew : alistFind uid lb = none) :
    (submit_nickname lb s uid raw).2.1 =
      lb ++ [(uid,
        if pyStrip (filterLeaderboardChars (pyStrip raw)) = "" then "Anonymous"
        else pyStrip (filterLeaderboardChars (pyStrip raw)), f)] := by
  unfold validNickname at hval
  simp only [Bool.and_eq_true, decide_eq_true_eq] at hval
  obtain ⟨⟨hl2, hl20⟩, hall⟩ := hval
  have hne : pyStrip raw ≠ "" := by
    intro e
    rw [e] at hl2
    simp at hl2
  unfold submit_nickname
  rw [hfs]
  dsimp only
  rw [if_neg (by simp; omega)]
  rw [if_neg (by simp [hall])]
  unfold update_leaderboard
  rw [hnew]
  dsimp only
  rw [sanitizeNickname_of_valid hne hl20]

/-! ## Concrete catalogs, counterexamples and witnesses -/

/-- A valid, non-empty cached geometry. -/
def okShape : GeoShape := ⟨true, false⟩

/-- Four playable countries, all pair distances present except
`(Aaa, Bbb)`. -/
def catMissingPair : Catalog :=
  { distList := [(("Aaa","Ccc"),5),(("Bbb","Ccc"),7),(("Aaa","Ddd"),9)],
    codeMap := [("Aaa","aa"),("Bbb","bb"),("Ccc","cc"),("Ddd","dd")],
    shapeList := [("Aaa", okShape),("Bbb", okShape),("Ccc", okShape),("Ddd", okShape)] }

/-- Four playable countries with a distance tie
`d(Aaa,Bbb) = d(Aaa,Ccc) = 5`. -/
def catTie : Catalog :=
  { distList := [(("Aaa","Bbb"),5),(("Aaa","Ccc"),5),(("Bbb","Ccc"),7),
                 (("Aaa","Ddd"),9),(("Bbb","Ddd"),3)],
    codeMap := [("Aaa","aa"),("Bbb","bb"),("Ccc","cc"),("Ddd","dd")],
    shapeList := [("Aaa", okShape),("Bbb", okShape),("Ccc", okShape),("Ddd", okShape)] }

/-- Four playable countries, all relevant distances present and distinct:
`d(Aaa,Bbb) = 5 < d(Aaa,Ccc) = 9`. -/
def catW : Catalog :=
  { distList := [(("Aaa","Bbb"),5),(("Aaa","Ccc"),9),(("Bbb","Ccc"),7),
                 (("Aaa","Ddd"),4),(("Bbb","Ddd"),2)],
    codeMap := [("Aaa","aa"),("Bbb","bb"),("Ccc","cc"),("Ddd","dd")],
    shapeList := [("Aaa", okShape),("Bbb", okShape),("Ccc", okShape),("Ddd", okShape)] }

/-- The session after `start_round catW headRng 0 emptySession`. -/
def sW1 : Session :=
  { score := some 0, userHighscore := some 0, baseCountry := some "Aaa",
    nextRoundBase := some "Bbb", nextRoundT1 := some "Aaa", nextRoundT2 := some "Ccc",
    servedBaseName := some "Aaa", servedTarget1Name := some "Bbb",
    servedTarget2Name := some "Ccc", servedNextT1Code := some "aa",
    servedNextT2Code := some "cc", roundInProgress := true, lastFinalScore := none }

/-- The round payload served by `start_round catW headRng 0 emptySession`. -/
def pW : RoundPayload :=
  { baseName := "Aaa", baseCode := "aa", t1Name := "Bbb", t1Code := "bb",
    t2Name := "Ccc", t2Code := "cc", score := 0, highscore := 0,
    nextT1Code := some "aa", nextT2Code := some "cc" }

/-- The session after the correct guess `Bbb` on the `sW1` round. -/
def sW2 : Session :=
  { score := some 1, userHighscore := some 1, baseCountry := some "Aaa",
    nextRoundBase := some "Bbb", nextRoundT1 := some "Aaa", nextRoundT2 := some "Ccc",
    servedBaseName := none, servedTarget1Name := none, servedTarget2Name := none,
    servedNextT1Code := none, servedNextT2Code := none, roundInProgress := false,
    lastFinalScore := none }

/-- A session with only a pending final score. -/
def sPend : Session := { emptySession with lastFinalScore := some 3 }

/-- The feature list of the successful map for `(Aaa, Bbb, Ccc)` on
`catW`. -/
def fsW : List FeatureTag :=
  [.countryShape "Aaa", .countryShape "Bbb", .countryShape "Ccc",
   .pointFeature "Aaa", .pointFeature "Bbb", .pointFeature "Aaa",
   .pointFeature "Ccc", .distanceLine ("Aaa", "Bbb"), .distanceLine ("Aaa", "Ccc")]

/-- **C3, counterexample.** On `catMissingPair` a fresh round `(Aaa, Bbb,
Ccc)` is served although the catalog has no distance entry for the pair
`(Aaa, Bbb)` — refuting the claim's cataloged-distance invariant. -/
theorem c3_counterexample :
    (roundPayloadOf (start_round catMissingPair headRng 0 emptySession).2).map
        (fun p => (p.baseName, p.t1Name, p.t2Name)) = some ("Aaa", "Bbb", "Ccc") ∧
    get_distance catMissingPair "Aaa" "Bbb" = none := by
  refine ⟨by decide, by decide⟩

/-- **C5, counterexample.** On `catTie` the guess `Ccc` against `Bbb`
from base `Aaa` is correct (a tie credits the player), yet the next
round served by `/start_round` has base `Bbb`, not the chosen `Ccc` —
refuting the claim that the chosen country always becomes the next
base. -/
theorem c5_counterexample :
    isCorrectResult (make_guess catTie 0 none
        (start_round catTie headRng 0 emptySession).1 "Aaa" "Ccc" "Bbb").2.2 = true ∧
    get_distance catTie "Aaa" "Ccc" = get_distance catTie "Aaa" "Bbb" ∧
    (roundPayloadOf (start_round catTie headRng 0
        (make_guess catTie 0 none (start_round catTie headRng 0 emptySession).1
          "Aaa" "Ccc" "Bbb").1).2).map (fun p => p.baseName) = some "Bbb" ∧
    ("Bbb" : String) ≠ "Ccc" := by
  refine ⟨by decide, by decide, by decide, by decide⟩

/-- **C10, counterexample.** The accepted nickname `". ab"` is stored as
`"ab"`: character stripping alone leaves `" ab"`, but the code trims the
result, so the claim's untrimmed transformation mispredicts the stored
value. -/
theorem c10_counterexample :
    validNickname ". ab" = true ∧
    (submit_nickname [] sPend "u1" ". ab").2.1 = [("u1", "ab", 3)] ∧
    claimedStoredNickname ". ab" = " ab" ∧
    ("ab" : String) ≠ " ab" := by
  refine ⟨by decide, by decide, by decide, by decide⟩

theorem c1_witness :
    isCorrectResult (make_guess catW 0 none sW1 "Aaa" "Bbb" "Ccc").2.2 = true ↔
      (5 : Rat) ≤ 9 :=
  c1_correct_iff_closer rfl (by decide)
    (show get_distance catW "Aaa" "Bbb" = some 5 by decide)
    (show get_distance catW "Aaa" "Ccc" = some 9 by decide)

theorem c2_witness :
    ∃ q, start_round catW headRng 9 sW1 = (sW1, .round q) ∧
      q.baseName = "Aaa" ∧ q.baseCode = "aa" ∧ q.t1Name = "Bbb" ∧ q.t1Code = "bb" ∧
      q.t2Name = "Ccc" ∧ q.t2Code = "cc" ∧ q.nextT1Code = some "aa" ∧
      q.nextT2Code = some "cc" :=
  c2_replay_idempotent
    (show start_round catW headRng 0 emptySession = (sW1, .round pW) by decide)

theorem c3_witness :
    pW.baseName ≠ pW.t1Name ∧ pW.baseName ≠ pW.t2Name ∧ pW.t1Name ≠ pW.t2Name ∧
    hasCode catW pW.baseName = true ∧ hasCode catW pW.t1Name = true ∧
    hasCode catW pW.t2Name = true :=
  c3_round_distinct headRng_valid rfl (Or.inl ⟨rfl, rfl, rfl⟩)
    (show start_round catW headRng 0 emptySession = (sW1, .round pW) by decide)

theorem c4_witness :
    (promptOf (make_guess catW 0 none sW2 "Aaa" "Ccc" "Bbb").2.2 = some true ↔
      (0 < sW2.score.getD 0 ∧ 0 ≤ sW2.score.getD 0)) ∧
    gameOverScoreOf (make_guess catW 0 none sW2 "Aaa" "Ccc" "Bbb").2.2 =
      some (sW2.score.getD 0) :=
  c4_prompt_nickname_iff rfl (by decide)
    (show get_distance catW "Aaa" "Ccc" = some 9 by decide)
    (show get_distance catW "Aaa" "Bbb" = some 5 by decide)
    (by norm_num)

theorem c5_witness :
    ∃ s3 q, start_round catW headRng 3
        (make_guess catW 7 none sW1 pW.baseName "Bbb" "Ccc").1 = (s3, .round q) ∧
      q.baseName = "Bbb" :=
  c5_chain_next_base headRng_valid rfl (Or.inl ⟨rfl, rfl, rfl⟩)
    (show start_round catW headRng 0 emptySession = (sW1, .round pW) by decide)
    (by decide) (Or.inl ⟨rfl, rfl⟩)
    (show get_distance catW pW.baseName "Bbb" = some 5 by decide)
    (show get_distance catW pW.baseName "Ccc" = some 9 by decide)
    (by norm_num) (by decide)

theorem c6_witness : sW1.nextRoundBase = some "Bbb" := by
  have h := (c6_hint_policy headRng_valid rfl (Or.inl ⟨rfl, rfl, rfl⟩)
    (show start_round catW headRng 0 emptySession = (sW1, .round pW) by decide)).1
    5 9 (show get_distance catW pW.baseName pW.t1Name = some 5 by decide)
    (show get_distance catW pW.baseName pW.t2Name = some 9 by decide)
  have h2 := h.1 (by decide)
  rw [if_pos (by norm_num)] at h2
  exact h2

theorem c7_witness :
    make_guess catW 5 none sW1 "Zzz" "Bbb" "Ccc" = (mismatchReset sW1, 5, .mismatch 0) ∧
    (mismatchReset sW1).score = none ∧ (mismatchReset sW1).baseCountry = none ∧
    (mismatchReset sW1).nextRoundBase = none ∧ (mismatchReset sW1).nextRoundT1 = none ∧
    (mismatchReset sW1).nextRoundT2 = none ∧ (mismatchReset sW1).servedBaseName = none ∧
    (mismatchReset sW1).servedTarget1Name = none ∧
    (mismatchReset sW1).servedTarget2Name = none ∧
    (mismatchReset sW1).servedNextT1Code = none ∧
    (mismatchReset sW1).servedNextT2Code = none ∧
    (mismatchReset sW1).roundInProgress = false :=
  c7_mismatch_resets (Or.inr (by decide))

theorem c8_witness :
    (submit_nickname [] sPend "u1" "ab").2.2 = .accepted ∧
    validNickname "a" = false ∧ validNickname "aaaaaaaaaaaaaaaaaaaaa" = false ∧
    validNickname "bad;name" = false :=
  ⟨((c8_submit_nickname_rules [] sPend "u1" "ab").2.2 3 rfl).1.mpr (by decide),
   by decide, by decide, by decide⟩

theorem c9_witness :
    get_game_over_data catW "Aaa" "Bbb" "Ccc" = .success fsW ∧ fsW.length = 9 ∧
    (fsW.filter isShapeFeature).length = 3 ∧ (fsW.filter isPointFeature).length = 4 ∧
    (fsW.filter isLineFeature).length = 2 := by
  have h : get_game_over_data catW "Aaa" "Bbb" "Ccc" = .success fsW := by decide
  have h2 := (c9_map_features catW "Aaa" "Bbb" "Ccc").1 fsW h
  exact ⟨h, h2.1, h2.2.1, h2.2.2.1, h2.2.2.2.1⟩

theorem c10_witness :
    (submit_nickname [] sPend "u1" "J.Doe").2.1 = [("u1", "JDoe", 3)] := by
  have h := c10_stored_nickname [] sPend "u1" "J.Doe" 3 (by decide) rfl rfl
  rw [h]
  decide
